import Mathlib

/-!
Verification of the NASA-backend ocean-data / shark-prediction service.

Each section shallowly embeds one part of the Python source:
  * association-list dictionaries model Python dicts (insertion order kept,
    update-in-place semantics);
  * `app/services/auth_service.py` (JWT creation / verification), with the
    third-party `jose` sign/verify pair idealised as a perfect MAC: a token
    is its payload together with the signing key and algorithm name, and
    decoding succeeds exactly when key and algorithm match and the `exp`
    claim (when present) is in the future;
  * `app/routers/ocean_data.py` + `app/services/ocean_data_service.py`
    (authenticated range queries);
  * `merge_shark_data.py`, `data_processor.py` (Haversine, grid
    augmentation), and the ML preprocessing routers;
  * `app/routers/ocean_data_simple.py` (Generation-B lightweight query).

Numeric model: exact rationals for the CSV/aggregation code, real numbers
for the trigonometric / square-root pipelines. Time is modelled in seconds
as an integer.
-/

set_option maxHeartbeats 1000000

/-- Propositional all-elements predicate on lists, used to state
per-row properties without introducing membership hypotheses. -/
def ListAll {α : Type _} (p : α → Prop) : List α → Prop
  | [] => True
  | x :: xs => p x ∧ ListAll p xs

theorem listAll_iff_forall {α : Type _} (p : α → Prop) (l : List α) :
    ListAll p l ↔ ∀ x ∈ l, p x := by
  induction l with
  | nil => simp [ListAll]
  | cons a l ih => simp [ListAll, ih]

theorem listAll_map {α β : Type _} (p : β → Prop) (f : α → β) (l : List α) :
    ListAll p (l.map f) ↔ ListAll (fun a => p (f a)) l := by
  induction l with
  | nil => simp [ListAll]
  | cons a l ih => simp [ListAll, ih]

theorem listAll_append {α : Type _} (p : α → Prop) (l₁ l₂ : List α) :
    ListAll p (l₁ ++ l₂) ↔ ListAll p l₁ ∧ ListAll p l₂ := by
  induction l₁ with
  | nil => simp [ListAll]
  | cons a l ih => simp [ListAll, ih, and_assoc]

/-- Python dict lookup on an association list (first matching key). -/
def dget {α : Type _} : List (String × α) → String → Option α
  | [], _ => none
  | (k, v) :: d, k0 => if k = k0 then some v else dget d k0

/-- Python dict update: replace the value in place when the key exists,
append the binding otherwise (dict insertion-order semantics). -/
def dput {α : Type _} : List (String × α) → String → α → List (String × α)
  | [], k0, v0 => [(k0, v0)]
  | (k, v) :: d, k0, v0 =>
    if k = k0 then (k, v0) :: d else (k, v) :: dput d k0 v0

theorem dget_dput_self {α : Type _} (d : List (String × α)) (k : String) (v : α) :
    dget (dput d k v) k = some v := by
  induction d with
  | nil => simp [dput, dget]
  | cons kv d ih =>
    obtain ⟨k1, v1⟩ := kv
    by_cases h : k1 = k <;> simp [dput, dget, h, ih]

theorem dget_dput_ne {α : Type _} (d : List (String × α)) (k k0 : String) (v : α)
    (h : k0 ≠ k) : dget (dput d k0 v) k = dget d k := by
  induction d with
  | nil => simp [dput, dget, h]
  | cons kv d ih =>
    obtain ⟨k1, v1⟩ := kv
    by_cases h1 : k1 = k0
    · subst h1
      simp [dput, dget, h]
    · by_cases h2 : k1 = k <;> simp [dput, dget, h1, h2, Ne.symm h, ih]

/-- JSON-ish claim values carried in a JWT payload (the parts of the value
domain these claims exercise: strings and integers). -/
inductive JVal where
  | s (v : String)
  | i (v : Int)
deriving DecidableEq, Repr

/-- A JWT claims dict. -/
abbrev Claims := List (String × JVal)

/-- settings.SECRET_KEY default from app/core/config.py. -/
def SECRET_KEY : String := "your-secret-key-here-please-change-in-production"

/-- settings.ALGORITHM default from app/core/config.py. -/
def ALGORITHM : String := "HS256"

/-- settings.REFRESH_TOKEN_EXPIRE_DAYS default from app/core/config.py. -/
def REFRESH_TOKEN_EXPIRE_DAYS : Int := 7

/-- Idealised encoded JWT: either a well-formed token remembering its
payload, signing key and algorithm, or an arbitrary malformed string. -/
inductive Token where
  | signed (payload : Claims) (key : String) (alg : String)
  | malformed (raw : String)
deriving DecidableEq

/-- Failure modes of jose.jwt.decode (all subclasses of JWTError). -/
inductive JWTError where
  | badSignature
  | badAlgorithm
  | expiredSignature
  | malformedToken
deriving DecidableEq, Repr

/-- jose.jwt.encode: sign the payload with the given key and algorithm. -/
def jwtEncode (payload : Claims) (key alg : String) : Token :=
  .signed payload key alg

/-- jose.jwt.decode at time `now` (seconds): verification succeeds exactly
when the key matches, the algorithm is allowed, and the `exp` claim (when
present as an integer timestamp) lies strictly in the future. -/
def jwtDecode (tok : Token) (key : String) (algs : List String) (now : Int) :
    Except JWTError Claims :=
  match tok with
  | .malformed _ => .error .malformedToken
  | .signed payload k alg =>
    if k ≠ key then .error .badSignature
    else if alg ∉ algs then .error .badAlgorithm
    else
      match dget payload "exp" with
      | some (.i ex) => if ex ≤ now then .error .expiredSignature else .ok payload
      | _ => .ok payload

/-- Expiry timestamp chosen by AuthService.create_access_token: `now` plus
the given delta when one is passed and truthy (a zero timedelta is falsy in
Python, falling back to the 15-minute default), else now + 15 minutes. -/
def accessExpiry (now : Int) (expires_delta : Option Int) : Int :=
  match expires_delta with
  | some d => if d = 0 then now + 15 * 60 else now + d
  | none => now + 15 * 60

/-- AuthService.create_access_token (auth_service.py:38-50). -/
def create_access_token (data : Claims) (now : Int) (expires_delta : Option Int) :
    Token :=
  jwtEncode (dput data "exp" (.i (accessExpiry now expires_delta))) SECRET_KEY ALGORITHM

/-- AuthService.create_refresh_token (auth_service.py:52-59): adds both an
`exp` claim (now + REFRESH_TOKEN_EXPIRE_DAYS days) and a `type = "refresh"`
claim. -/
def create_refresh_token (data : Claims) (now : Int) : Token :=
  jwtEncode
    (dput (dput data "exp" (.i (now + REFRESH_TOKEN_EXPIRE_DAYS * 86400)))
      "type" (.s "refresh"))
    SECRET_KEY ALGORITHM

/-- AuthService.verify_token (auth_service.py:61-71): decode with the
configured secret and algorithm; on any JWTError return None, otherwise
return the `sub` claim (None when absent). -/
def verify_token (tok : Token) (now : Int) : Option JVal :=
  match jwtDecode tok SECRET_KEY [ALGORITHM] now with
  | .error _ => none
  | .ok payload => dget payload "sub"

/-- The example user returned by AuthService.get_current_user; the
`created_at = utcnow()` field is time-dependent and omitted. -/
structure UserM where
  id : Int
  email : String
  username : String
  is_active : Bool
deriving DecidableEq, Repr

/-- AuthService.get_current_user (auth_service.py:73-104): decode the
bearer token, 401 on JWTError or a missing `sub`; a non-string `sub` fails
pydantic validation of TokenData outside the except block (a 500). -/
def get_current_user (tok : Token) (now : Int) : Except Nat UserM :=
  match jwtDecode tok SECRET_KEY [ALGORITHM] now with
  | .error _ => .error 401
  | .ok payload =>
    match dget payload "sub" with
    | none => .error 401
    | some (.s e) => .ok ⟨1, e, "example_user", true⟩
    | some (.i _) => .error 500

/-- C3: a claims dict holding a string subject, encoded by
create_access_token, verifies back to that subject at any time before the
chosen expiry; a token signed with a different secret, or a malformed
token, verifies to an absent value (never an exception). -/
theorem c3_token_round_trip :
    (∀ (d : Claims) (e : String) (t0 t1 : Int) (dlt : Option Int),
        dget d "sub" = some (.s e) →
        t1 < accessExpiry t0 dlt →
        verify_token (create_access_token d t0 dlt) t1 = some (.s e))
    ∧ (∀ (p : Claims) (k alg : String) (t : Int),
        k ≠ SECRET_KEY → verify_token (.signed p k alg) t = none)
    ∧ (∀ (raw : String) (t : Int), verify_token (.malformed raw) t = none) := by
  refine ⟨?_, ?_, ?_⟩
  · intro d e t0 t1 dlt hsub hlt
    have hexp : dget (dput d "exp" (JVal.i (accessExpiry t0 dlt))) "exp"
        = some (JVal.i (accessExpiry t0 dlt)) := dget_dput_self d _ _
    have hsub2 : dget (dput d "exp" (JVal.i (accessExpiry t0 dlt))) "sub"
        = some (JVal.s e) := by
      rw [dget_dput_ne d "sub" "exp" _ (by decide)]
      exact hsub
    simp only [verify_token, create_access_token, jwtEncode, jwtDecode]
    rw [hexp]
    simp [hsub2, not_le.mpr hlt]
  · intro p k alg t hk
    simp [verify_token, jwtDecode, hk]
  · intro raw t
    simp [verify_token, jwtDecode]

/-- Witness for C3 at a concrete claims dict and times. -/
theorem c3_token_round_trip_witness :
    dget [("sub", JVal.s "a@b.com")] "sub" = some (JVal.s "a@b.com")
    ∧ (0 : Int) < accessExpiry 0 none
    ∧ ("other-secret" : String) ≠ SECRET_KEY
    ∧ verify_token (create_access_token [("sub", JVal.s "a@b.com")] 0 none) 0
        = some (JVal.s "a@b.com")
    ∧ verify_token (.signed [("sub", JVal.s "a@b.com")] "other-secret" ALGORITHM) 0
        = none :=
  ⟨by decide, by decide, by decide,
    c3_token_round_trip.1 [("sub", JVal.s "a@b.com")] "a@b.com" 0 0 none
      (by decide) (by decide),
    c3_token_round_trip.2.1 [("sub", JVal.s "a@b.com")] "other-secret" ALGORITHM 0
      (by decide)⟩

/-- C9: verify_token and get_current_user check nothing about token type,
so a refresh token (which carries `type = "refresh"`) with a string subject
verifies before its 7-day expiry and is accepted by get_current_user
exactly like an access token. -/
theorem c9_refresh_token_accepted :
    ∀ (d : Claims) (e : String) (t0 t1 : Int),
      dget d "sub" = some (.s e) →
      t1 < t0 + REFRESH_TOKEN_EXPIRE_DAYS * 86400 →
      verify_token (create_refresh_token d t0) t1 = some (.s e)
      ∧ get_current_user (create_refresh_token d t0) t1
          = .ok ⟨1, e, "example_user", true⟩ := by
  intro d e t0 t1 hsub hlt
  have hexp : dget
      (dput (dput d "exp" (JVal.i (t0 + REFRESH_TOKEN_EXPIRE_DAYS * 86400)))
        "type" (.s "refresh")) "exp"
      = some (JVal.i (t0 + REFRESH_TOKEN_EXPIRE_DAYS * 86400)) := by
    rw [dget_dput_ne _ "exp" "type" _ (by decide)]
    exact dget_dput_self d _ _
  have hsub2 : dget
      (dput (dput d "exp" (JVal.i (t0 + REFRESH_TOKEN_EXPIRE_DAYS * 86400)))
        "type" (.s "refresh")) "sub"
      = some (JVal.s e) := by
    rw [dget_dput_ne _ "sub" "type" _ (by decide),
      dget_dput_ne d "sub" "exp" _ (by decide)]
    exact hsub
  constructor
  · simp only [verify_token, create_refresh_token, jwtEncode, jwtDecode]
    rw [hexp]
    simp [hsub2, not_le.mpr hlt]
  · simp only [get_current_user, create_refresh_token, jwtEncode, jwtDecode]
    rw [hexp]
    simp [hsub2, not_le.mpr hlt]

/-- Witness for C9 at a concrete claims dict and times. -/
theorem c9_refresh_token_accepted_witness :
    dget [("sub", JVal.s "a@b.com")] "sub" = some (JVal.s "a@b.com")
    ∧ (0 : Int) < 0 + REFRESH_TOKEN_EXPIRE_DAYS * 86400
    ∧ verify_token (create_refresh_token [("sub", JVal.s "a@b.com")] 0) 0
        = some (JVal.s "a@b.com")
    ∧ get_current_user (create_refresh_token [("sub", JVal.s "a@b.com")] 0) 0
        = .ok ⟨1, "a@b.com", "example_user", true⟩ :=
  ⟨by decide, by decide,
    (c9_refresh_token_accepted [("sub", JVal.s "a@b.com")] "a@b.com" 0 0
      (by decide) (by decide)).1,
    (c9_refresh_token_accepted [("sub", JVal.s "a@b.com")] "a@b.com" 0 0
      (by decide) (by decide)).2⟩

/-- Python datetime.date (year, month, day); comparison is lexicographic. -/
structure PyDate where
  y : Int
  m : Int
  d : Int
deriving DecidableEq, Repr

/-- Strict date comparison a < b (lexicographic, as on datetime.date). -/
def dateLt (a b : PyDate) : Bool :=
  a.y < b.y || (a.y == b.y && (a.m < b.m || (a.m == b.m && a.d < b.d)))

/-- Date comparison a <= b. -/
def dateLe (a b : PyDate) : Bool :=
  dateLt a b || a == b

/-- Round-half-to-even to an integer (Python builtin round tie behavior). -/
def roundHalfEven (q : ℚ) : ℤ :=
  let f := ⌊q⌋
  let r := q - (f : ℚ)
  if r < 1/2 then f
  else if 1/2 < r then f + 1
  else if f % 2 = 0 then f else f + 1

/-- Python round(x, 6). -/
def pyRound6 (q : ℚ) : ℚ :=
  (roundHalfEven (q * 1000000) : ℚ) / 1000000

/-- Mean of the non-null entries of a column; None when all are null
(pandas Series.mean skips NaN, guarded by the isna().all() checks). -/
def meanOpt (vs : List (Option ℚ)) : Option ℚ :=
  match vs.filterMap id with
  | [] => none
  | x :: xs => some ((x :: xs).sum / ((x :: xs).length : ℚ))

/-- One cached row of the authenticated ocean-data service (the columns
the range query touches). -/
structure ORow where
  date : PyDate
  sst : Option ℚ
  chl : Option ℚ
  ssha : Option ℚ
deriving DecidableEq

/-- Response item of the range query (schemas.ocean_data.OceanDataResponse). -/
structure OceanDataResponse where
  date : PyDate
  sst_value : Option ℚ
  chl_value : Option ℚ
  ssha_value : Option ℚ
  data_count : Nat
deriving DecidableEq

/-- List response of the range query; the formatted date_range string is
carried as its two date components. -/
structure OceanDataListResponse where
  total_records : Nat
  range_start : PyDate
  range_end : PyDate
  data : List OceanDataResponse
deriving DecidableEq

/-- Insert a date into a sorted list of dates. -/
def insSorted (d : PyDate) : List PyDate → List PyDate
  | [] => [d]
  | x :: xs => if dateLe d x then d :: x :: xs else x :: insSorted d xs

/-- Sort a list of dates ascending (sorted(unique ...) in the service). -/
def sortDates (l : List PyDate) : List PyDate :=
  l.foldr insSorted []

/-- OceanDataService.get_data_by_date_range (ocean_data_service.py:141-179):
filter the cache to the inclusive date interval, group by date, and report
per-day means (6-decimal rounding) with per-day counts. -/
def get_data_by_date_range (cache : List ORow) (s e : PyDate) :
    OceanDataListResponse :=
  if cache.isEmpty then ⟨0, s, e, []⟩
  else
    let filtered := cache.filter (fun r => dateLe s r.date && dateLe r.date e)
    let uniqueDates := sortDates (filtered.map (·.date)).eraseDups
    let daily := uniqueDates.map (fun dt =>
      let df := filtered.filter (fun r => r.date == dt)
      { date := dt
        sst_value := (meanOpt (df.map (·.sst))).map pyRound6
        chl_value := (meanOpt (df.map (·.chl))).map pyRound6
        ssha_value := (meanOpt (df.map (·.ssha))).map pyRound6
        data_count := df.length })
    ⟨filtered.length, s, e, daily⟩

/-- GET /range handler (ocean_data.py:114-137): rejects start > end with a
400 before touching the service, re-raising the HTTPException past the
generic except clause. -/
def range_get (cache : List ORow) (s e : PyDate) :
    Except Nat OceanDataListResponse :=
  if dateLt e s then .error 400
  else .ok (get_data_by_date_range cache s e)

/-- POST /range handler (ocean_data.py:140-154): no date-order validation;
the service is called for every interval. -/
def range_post (cache : List ORow) (s e : PyDate) :
    Except Nat OceanDataListResponse :=
  .ok (get_data_by_date_range cache s e)

/-- C1 counterexample: for start 2014-07-15 after end 2014-07-10 the POST
/range handler does not return 400 — it invokes the range query and
returns its (empty) list response. -/
theorem c1_counterexample_post_no_validation :
    dateLt ⟨2014, 7, 10⟩ ⟨2014, 7, 15⟩ = true
    ∧ range_post [] ⟨2014, 7, 15⟩ ⟨2014, 7, 10⟩
        = .ok ⟨0, ⟨2014, 7, 15⟩, ⟨2014, 7, 10⟩, []⟩
    ∧ range_post [] ⟨2014, 7, 15⟩ ⟨2014, 7, 10⟩ ≠ .error 400 := by
  refine ⟨by decide, rfl, ?_⟩
  intro h
  simp [range_post] at h

/-- C1 amended: only the GET variant of /range validates start <= end (400
when violated, service untouched); the POST variant always invokes the
range query, which over an ill-ordered interval filters nothing and
returns an empty list response. -/
theorem c1_range_validation :
    ∀ (cache : List ORow) (s e : PyDate),
      (dateLt e s = true → range_get cache s e = .error 400)
      ∧ (dateLt e s = false →
          range_get cache s e = .ok (get_data_by_date_range cache s e))
      ∧ range_post cache s e = .ok (get_data_by_date_range cache s e)
      ∧ (dateLt e s = true →
          (get_data_by_date_range cache s e).total_records = 0
          ∧ (get_data_by_date_range cache s e).data = []) := by
  intro cache s e
  refine ⟨fun h => by simp [range_get, h], fun h => by simp [range_get, h],
    rfl, fun h => ?_⟩
  have hfilter : cache.filter (fun r => dateLe s r.date && dateLe r.date e) = [] := by
    apply List.filter_eq_nil_iff.mpr
    intro r _
    simp only [Bool.and_eq_true, not_and]
    intro hs
    simp only [dateLe, dateLt, Bool.or_eq_true, Bool.and_eq_true, beq_iff_eq,
      decide_eq_true_eq] at hs h ⊢
    push_neg
    constructor
    · rcases hs with hlt | heq
      · rcases h with h | ⟨hy, h⟩
        · rcases hlt with h2 | ⟨hy2, h2⟩
          · omega
          · rcases h2 with h3 | ⟨hm2, h3⟩ <;> omega
        · rcases hlt with h2 | ⟨hy2, h2⟩
          · omega
          · rcases h with h | ⟨hm, h⟩ <;> rcases h2 with h3 | ⟨hm2, h3⟩ <;> omega
      · subst heq
        rcases h with h | ⟨hy, h⟩
        · omega
        · rcases h with h | ⟨hm, h⟩ <;> omega
    · intro hre
      rcases hs with hlt | heq
      · subst hre
        rcases h with h2 | ⟨hy2, h2⟩
        · rcases hlt with h3 | ⟨hy3, h3⟩
          · omega
          · rcases h3 with h4 | ⟨hm4, h4⟩ <;> omega
        · rcases hlt with h3 | ⟨hy3, h3⟩
          · omega
          · rcases h2 with h4 | ⟨hm4, h4⟩ <;> rcases h3 with h5 | ⟨hm5, h5⟩ <;> omega
      · subst heq
        subst hre
        rcases h with h2 | ⟨hy2, h2⟩
        · omega
        · rcases h2 with h3 | ⟨hm3, h3⟩ <;> omega
  by_cases hc : cache.isEmpty <;>
    simp [get_data_by_date_range, hc, hfilter, sortDates, List.eraseDups,
      show List.eraseDups.loop ([] : List PyDate) [] = [] from rfl]

/-- Witness for C1 amended at concrete dates. -/
theorem c1_range_validation_witness :
    dateLt ⟨2014, 7, 10⟩ ⟨2014, 7, 15⟩ = true
    ∧ range_get [] ⟨2014, 7, 15⟩ ⟨2014, 7, 10⟩ = .error 400 :=
  ⟨by decide,
    (c1_range_validation [] ⟨2014, 7, 15⟩ ⟨2014, 7, 10⟩).1 (by decide)⟩

/-- A pandas DataFrame projected to what merge_shark_data manipulates:
a column list (in order) and rows as dicts. ignore_index concatenation is
positional, so the reset index is implicit in the list order. -/
structure DF where
  cols : List String
  rows : List (List (String × JVal))
deriving DecidableEq

/-- Column-assignment effect on the column list: an existing column keeps
its position, a new one is appended. -/
def addCol (cols : List String) (c : String) : List String :=
  if c ∈ cols then cols else cols ++ [c]

/-- Column union of pd.concat (sort=False): first frame's columns, then
the second frame's new ones in order of appearance. -/
def colsUnion (a b : List String) : List String :=
  a ++ b.filter (fun c => decide (c ∉ a))

/-- merge_shark_data (merge_shark_data.py:30-56): label every shark-file
row has_shark = 1 and every random-file row has_shark = 0, then
concatenate shark rows first with ignore_index=True. -/
def merge_shark_data (shark random : DF) : DF :=
  let sharkL : DF :=
    ⟨addCol shark.cols "has_shark",
      shark.rows.map (fun r => dput r "has_shark" (.i 1))⟩
  let randomL : DF :=
    ⟨addCol random.cols "has_shark",
      random.rows.map (fun r => dput r "has_shark" (.i 0))⟩
  ⟨colsUnion sharkL.cols randomL.cols, sharkL.rows ++ randomL.rows⟩

/-- Integer value of a row's has_shark cell (0 when absent/non-integer). -/
def hasSharkVal (row : List (String × JVal)) : Int :=
  match dget row "has_shark" with
  | some (.i n) => n
  | _ => 0

/-- Sum of the has_shark column. -/
def hasSharkSum : List (List (String × JVal)) → Int
  | [] => 0
  | r :: rs => hasSharkVal r + hasSharkSum rs

theorem mem_addCol (cols : List String) (c k : String) :
    k ∈ addCol cols c ↔ k ∈ cols ∨ k = c := by
  by_cases h : c ∈ cols
  · simp only [addCol, if_pos h]
    constructor
    · exact Or.inl
    · rintro (hk | rfl)
      · exact hk
      · exact h
  · simp [addCol, if_neg h]

theorem mem_colsUnion (a b : List String) (k : String) :
    k ∈ colsUnion a b ↔ k ∈ a ∨ k ∈ b := by
  simp only [colsUnion, List.mem_append, List.mem_filter, decide_eq_true_eq]
  by_cases h : k ∈ a
  · simp [h]
  · simp [h]

theorem hasSharkSum_append (l₁ l₂ : List (List (String × JVal))) :
    hasSharkSum (l₁ ++ l₂) = hasSharkSum l₁ + hasSharkSum l₂ := by
  induction l₁ with
  | nil => simp [hasSharkSum]
  | cons r rs ih => simp [hasSharkSum, ih]; ring

theorem hasSharkSum_label (rows : List (List (String × JVal))) (v : Int) :
    hasSharkSum (rows.map (fun r => dput r "has_shark" (JVal.i v)))
      = rows.length * v := by
  induction rows with
  | nil => simp [hasSharkSum]
  | cons r rs ih =>
    simp only [List.map_cons, hasSharkSum, hasSharkVal, dget_dput_self,
      List.length_cons, ih]
    push_cast
    ring

/-- Example positive file with 3 rows (for the concrete instance in C6). -/
def sharkEx : DF :=
  ⟨["Date", "Longitude"],
    [[("Date", .s "2014-07-10"), ("Longitude", .i 1)],
     [("Date", .s "2014-07-11"), ("Longitude", .i 2)],
     [("Date", .s "2014-07-12"), ("Longitude", .i 3)]]⟩

/-- Example negative file with 2 rows (for the concrete instance in C6). -/
def randomEx : DF :=
  ⟨["Date", "Latitude"],
    [[("Date", .s "2014-07-10"), ("Latitude", .i 4)],
     [("Date", .s "2014-07-11"), ("Latitude", .i 5)]]⟩

/-- C6: merging produces rows(shark) + rows(random) rows, has_shark sums
to the positive file's row count, the column set is the union of both
inputs' columns plus has_shark, shark rows come first in original order
followed by random rows in original order (index reset), and in particular
a 3-row positive file with a 2-row negative file gives 5 rows summing to 3. -/
theorem c6_merge_correct :
    (∀ (shark random : DF),
      (merge_shark_data shark random).rows.length
          = shark.rows.length + random.rows.length
      ∧ hasSharkSum (merge_shark_data shark random).rows
          = shark.rows.length
      ∧ (∀ c : String, c ∈ (merge_shark_data shark random).cols ↔
          (c ∈ shark.cols ∨ c ∈ random.cols ∨ c = "has_shark"))
      ∧ (merge_shark_data shark random).rows
          = shark.rows.map (fun r => dput r "has_shark" (JVal.i 1))
            ++ random.rows.map (fun r => dput r "has_shark" (JVal.i 0)))
    ∧ (merge_shark_data sharkEx randomEx).rows.length = 5
    ∧ hasSharkSum (merge_shark_data sharkEx randomEx).rows = 3 := by
  refine ⟨fun shark random => ⟨?_, ?_, ?_, rfl⟩, by decide, by decide⟩
  · simp [merge_shark_data]
  · simp [merge_shark_data, hasSharkSum_append, hasSharkSum_label]
  · intro c
    simp only [merge_shark_data, mem_colsUnion, mem_addCol]
    tauto

/-- A CSV record as produced by csv.DictReader: header/value pairs. -/
abbrev CsvRow := List (String × String)

/-- Value of a possibly-signless all-digit character run. -/
def digitsVal (cs : List Char) : Option Nat :=
  if cs.isEmpty then none
  else if cs.all (·.isDigit) then
    some (cs.foldl (fun n c => n * 10 + (c.toNat - 48)) 0)
  else none

/-- Split a leading sign off a character run. -/
def parseSign : List Char → (Int × List Char)
  | '-' :: cs => (-1, cs)
  | '+' :: cs => (1, cs)
  | cs => (1, cs)

/-- Strip surrounding whitespace (str.strip noise around numeric
literals). -/
def charTrim (cs : List Char) : List Char :=
  ((cs.dropWhile Char.isWhitespace).reverse.dropWhile Char.isWhitespace).reverse

/-- Python str.lower on the ASCII range. -/
def pyLower (s : String) : String :=
  ⟨s.data.map Char.toLower⟩

/-- Mantissa of a float literal: digits with at most one decimal point,
at least one digit overall. -/
def parseMantissa (cs : List Char) : Option ℚ :=
  match cs.splitOn '.' with
  | [ip] => (digitsVal ip).map (fun n => (n : ℚ))
  | [ip, fp] =>
    if ip.isEmpty && fp.isEmpty then none
    else do
      let ipv ← if ip.isEmpty then some 0 else digitsVal ip
      let fpv ← if fp.isEmpty then some 0 else digitsVal fp
      pure ((ipv : ℚ) + (fpv : ℚ) / ((10 : ℚ) ^ fp.length))
  | _ => none

/-- Python float(s) on finite decimal literals (optional sign, optional
fraction, optional exponent, surrounding whitespace); special values such
as inf/nan are outside the rational value domain and parse to none, as do
malformed strings (ValueError). -/
def pyFloat (s : String) : Option ℚ :=
  let cs := (charTrim s.data).map Char.toLower
  let (sg, cs1) := parseSign cs
  match cs1.splitOn 'e' with
  | [m] => (parseMantissa m).map (fun q => (sg : ℚ) * q)
  | [m, ex] => do
    let mv ← parseMantissa m
    let (esg, ecs) := parseSign ex
    let ev ← digitsVal ecs
    pure ((sg : ℚ) * mv * (10 : ℚ) ^ (esg * (ev : Int)))
  | _ => none

/-- float(row.get(header, 0)) with the ValueError/TypeError fallback to
0.0 (ml_prediction_simple.py:69-74). -/
def pyFloatCell (v : Option String) : ℚ :=
  match v with
  | none => 0
  | some s => (pyFloat s).getD 0

/-- The known non-numeric field set excluded from the numeric matrix
(ml_prediction_simple.py:59-62; the Python set literal repeats two
entries). -/
def nonNumericFields : List String :=
  ["date", "individual_id", "is_in_eddy", "eddy_type",
   "Date", "Individual_ID", "is_in_eddy", "eddy_type"]

/-- Headers kept for the numeric matrix. -/
def numericHeaders (headers : List String) : List String :=
  headers.filter (fun h => decide (h ∉ nonNumericFields))

/-- Synthetic names appended while padding the header list. -/
def padNames (names : List String) (w : Nat) : List String :=
  names ++ (List.range (w - names.length)).map
    (fun i => "feature_" ++ toString (names.length + i + 1))

/-- The numeric rows before width adjustment: one float per numeric
header (missing keys default to 0), rows kept only when non-empty. -/
def rawRows (headers : List String) (rows : List CsvRow) : List (List ℚ) :=
  let nh := numericHeaders headers
  (rows.map (fun r => nh.map (fun h => pyFloatCell (dget r h)))).filter
    (fun nr => decide (0 < nr.length))

/-- process_csv_for_ml (ml_prediction_simple.py:48-100): parse the CSV
into a numeric matrix and adjust its width to the model expectation by
right-truncation or zero-padding; none models the error returns (missing
header row / no valid data rows). -/
def process_csv_for_ml (headers : List String) (rows : List CsvRow)
    (expected : Nat) : Option (List (List ℚ) × List String) :=
  if headers.isEmpty then none
  else
    let nh := numericHeaders headers
    let dataRows := rawRows headers rows
    if dataRows.isEmpty then none
    else if expected < nh.length then
      some (dataRows.map (·.take expected), nh.take expected)
    else if nh.length < expected then
      some (dataRows.map (fun r => r ++ List.replicate (expected - r.length) 0),
        padNames nh expected)
    else
      some (dataRows, nh)

/-- The matrix handed to model.predict by the simple route ([] when the
route errors out before predicting). -/
def mlMatrix (headers : List String) (rows : List CsvRow) (expected : Nat) :
    List (List ℚ) :=
  match process_csv_for_ml headers rows expected with
  | none => []
  | some (m, _) => m

theorem rawRows_length (headers : List String) (rows : List CsvRow) :
    ∀ r ∈ rawRows headers rows, r.length = (numericHeaders headers).length := by
  intro r hr
  simp only [rawRows, List.mem_filter, List.mem_map] at hr
  obtain ⟨⟨row, _, rfl⟩, _⟩ := hr
  simp

/-- Exception kinds that can escape the Generation-B record processing. -/
inductive PyErr where
  | keyError
  | valueError
deriving DecidableEq, Repr

/-- Python int(s): surrounding whitespace, optional sign, decimal digits;
anything else raises ValueError (modelled as none). -/
def pyInt (s : String) : Option Int :=
  let cs := charTrim s.data
  let (sg, cs1) := parseSign cs
  (digitsVal cs1).map (fun n => sg * (n : Int))

/-- ocean_data_simple.safe_float (ocean_data_simple.py:20-27). -/
def safe_float (v : String) : Option ℚ :=
  if v = "" then none else pyFloat v

/-- safe_float(record.get(k, 0)): a missing key defaults to the int 0,
which converts to 0.0. -/
def safeFloatCell (v : Option String) : Option ℚ :=
  match v with
  | none => some 0
  | some s => safe_float s

/-- ocean_data_simple.parse_date: strict YYYY-MM-DD (strptime %Y-%m-%d),
with calendar validation approximated by day <= 31. -/
def parseDate (s : String) : Option PyDate :=
  match s.data.splitOn '-' with
  | [ys, ms, ds] => do
    let y ← digitsVal ys
    let mo ← digitsVal ms
    let d ← digitsVal ds
    if 1 ≤ mo ∧ mo ≤ 12 ∧ 1 ≤ d ∧ d ≤ 31 then
      some ⟨(y : Int), (mo : Int), (d : Int)⟩
    else none
  | _ => none

/-- record[k]: KeyError when the column is absent. -/
def getCol (r : CsvRow) (k : String) : Except PyErr String :=
  match dget r k with
  | some v => .ok v
  | none => .error .keyError

/-- int(s) in exception-raising position. -/
def pyIntE (s : String) : Except PyErr Int :=
  match pyInt s with
  | some n => .ok n
  | none => .error .valueError

/-- Exception-aware map (the per-record loops of the handler body). -/
def mapE {ε α β : Type _} (f : α → Except ε β) : List α → Except ε (List β)
  | [] => .ok []
  | a :: l => do
    let b ← f a
    let bs ← mapE f l
    pure (b :: bs)

/-- The record-matching scan (ocean_data_simple.py:39-42): row['Date']
is parsed (KeyError possible) and compared against the target date. -/
def collectMatching (rows : List CsvRow) (target : PyDate) :
    Except PyErr (List CsvRow) :=
  match rows with
  | [] => .ok []
  | r :: rs => do
    let ds ← getCol r "Date"
    let rest ← collectMatching rs target
    pure (if parseDate ds = some target then r :: rest else rest)

/-- One processed record of the Generation-B payload
(ocean_data_simple.py:89-105). -/
structure ProcRecord where
  longitude : Option ℚ
  latitude : Option ℚ
  sst_value : Option ℚ
  chl_value : Option ℚ
  ssha_value : Option ℚ
  has_shark : Bool
  individual_id : String
  sst_gradient : Option ℚ
  chl_gradient : Option ℚ
  ssha_gradient : Option ℚ
  thermal_front_strength : Option ℚ
  productivity_index : Option ℚ
  is_in_eddy : Bool
  eddy_type : String
  daily_movement_km : Option ℚ
deriving DecidableEq, Repr

/-- Build one processed record; has_shark goes through bool(int(s)) —
a ValueError escapes — while is_in_eddy string-matches "true"
case-insensitively with default "False". -/
def processRecord (r : CsvRow) : Except PyErr ProcRecord := do
  let lon ← getCol r "Longitude"
  let lat ← getCol r "Latitude"
  let sst ← getCol r "SST_Value"
  let chl ← getCol r "CHL_Concentration"
  let ssha ← getCol r "SSHA_Value"
  let hs ← getCol r "has_shark"
  let hsi ← pyIntE hs
  pure
    { longitude := safe_float lon
      latitude := safe_float lat
      sst_value := safe_float sst
      chl_value := safe_float chl
      ssha_value := safe_float ssha
      has_shark := decide (hsi ≠ 0)
      individual_id := (dget r "Individual_ID").getD ""
      sst_gradient := safeFloatCell (dget r "SST_Gradient")
      chl_gradient := safeFloatCell (dget r "CHL_Gradient")
      ssha_gradient := safeFloatCell (dget r "SSHA_Gradient")
      thermal_front_strength := safeFloatCell (dget r "Thermal_Front_Strength")
      productivity_index := safeFloatCell (dget r "Productivity_Index")
      is_in_eddy := pyLower ((dget r "is_in_eddy").getD "False") == "true"
      eddy_type := (dget r "eddy_type").getD "none"
      daily_movement_km := safeFloatCell (dget r "Daily_Movement_km") }

/-- The averages block of the Generation-B payload. -/
structure GBAverages where
  sst_value : Option ℚ
  chl_value : Option ℚ
  ssha_value : Option ℚ
  longitude : Option ℚ
  latitude : Option ℚ
deriving DecidableEq, Repr

/-- The Generation-B response payload; `error` marks the error-key
payloads, `message` the message-key ones. -/
structure SimplePayload where
  date : PyDate
  data_count : Nat
  records : List ProcRecord
  shark_count : Nat
  no_shark_count : Nat
  total_records : Nat
  shark_presence_rate : ℚ
  averages : GBAverages
  message : Option String
  error : Bool
deriving DecidableEq, Repr

/-- The zero-valued payload shape shared by the no-match, file-missing and
exception branches. -/
def zeroPayload (d : PyDate) (err : Bool) (msg : Option String) : SimplePayload :=
  ⟨d, 0, [], 0, 0, 0, 0, ⟨none, none, none, none, none⟩, msg, err⟩

/-- Column extraction through safe_float over record[k] (KeyError possible
on the direct indexing). -/
def columnOpt (rows : List CsvRow) (k : String) : Except PyErr (List (Option ℚ)) :=
  mapE (fun r => (getCol r k).map safe_float) rows

/-- has_shark_values = [int(record['has_shark']) for record in matching]. -/
def sharkInts (rows : List CsvRow) : Except PyErr (List Int) :=
  mapE (fun r => getCol r "has_shark" >>= pyIntE) rows

/-- The success payload (ocean_data_simple.py:108-131). -/
def successPayload (target : PyDate)
    (sstVals chlVals sshaVals lonVals latVals : List (Option ℚ))
    (processed : List ProcRecord) : SimplePayload :=
  let sharkRecs := processed.filter (·.has_shark)
  let noSharkRecs := processed.filter (fun r => !r.has_shark)
  { date := target
    data_count := processed.length
    records := processed
    shark_count := sharkRecs.length
    no_shark_count := noSharkRecs.length
    total_records := processed.length
    shark_presence_rate :=
      pyRound6 ((sharkRecs.length : ℚ) / (processed.length : ℚ))
    averages :=
      ⟨(meanOpt sstVals).map pyRound6, (meanOpt chlVals).map pyRound6,
        (meanOpt sshaVals).map pyRound6, (meanOpt lonVals).map pyRound6,
        (meanOpt latVals).map pyRound6⟩
    message := some "success"
    error := false }

/-- The try-body of get_ocean_data_by_date (ocean_data_simple.py:35-131). -/
def gb_body (rows : List CsvRow) (target : PyDate) :
    Except PyErr SimplePayload := do
  let matching ← collectMatching rows target
  if matching.isEmpty then
    pure (zeroPayload target false (some "no data"))
  else do
    let sstVals ← columnOpt matching "SST_Value"
    let chlVals ← columnOpt matching "CHL_Concentration"
    let sshaVals ← columnOpt matching "SSHA_Value"
    let lonVals ← columnOpt matching "Longitude"
    let latVals ← columnOpt matching "Latitude"
    let _ ← sharkInts matching
    let processed ← mapE processRecord matching
    pure (successPayload target sstVals chlVals sshaVals lonVals latVals processed)

/-- ocean_data_simple.get_ocean_data_by_date (ocean_data_simple.py:29-172):
a missing file and every in-body exception land in the zero-valued error
payload; the function itself never raises. -/
def get_ocean_data_by_date (file : Option (List CsvRow)) (target : PyDate) :
    SimplePayload :=
  match file with
  | none => zeroPayload target true none
  | some rows =>
    match gb_body rows target with
    | .ok p => p
    | .error _ => zeroPayload target true none

theorem except_bind_ok {ε α β : Type _} (x : Except ε α) (f : α → Except ε β)
    (b : β) : x >>= f = Except.ok b ↔ ∃ a, x = Except.ok a ∧ f a = Except.ok b := by
  cases x with
  | error e => simp [Bind.bind, Except.bind]
  | ok a => simp [Bind.bind, Except.bind]

theorem getCol_ok (r : CsvRow) (k v : String) :
    getCol r k = .ok v ↔ dget r k = some v := by
  unfold getCol
  cases h : dget r k <;> simp

theorem pyIntE_ok (s : String) (n : Int) :
    pyIntE s = .ok n ↔ pyInt s = some n := by
  unfold pyIntE
  cases h : pyInt s <;> simp

/-- Modelled from the spec: the presence-flag parser the spec describes
for the Generation-B query, accepting the literal forms true/1/yes
case-insensitively. Compared below against the source's bool(int(s)). -/
def specFlagParse (s : String) : Bool :=
  pyLower s ∈ ["true", "1", "yes"]

/-- A matching Generation-B record whose has_shark cell carries the
literal "true", which the spec's parser accepts. -/
def c7row : CsvRow :=
  [("Date", "2014-07-10"), ("Longitude", "0"), ("Latitude", "0"),
   ("SST_Value", "20"), ("CHL_Concentration", "1"), ("SSHA_Value", "0"),
   ("has_shark", "true")]

/-- C7 counterexample: on a file whose single matching record carries
has_shark = "true" — accepted as true by the spec's parser — the code
raises inside int("true") and produces the zero-valued error payload with
no records at all, instead of a record parsed as shark-present. -/
theorem c7_counterexample_flag_literal :
    specFlagParse "true" = true
    ∧ dget c7row "has_shark" = some "true"
    ∧ get_ocean_data_by_date (some [c7row]) ⟨2014, 7, 10⟩
        = zeroPayload ⟨2014, 7, 10⟩ true none
    ∧ (get_ocean_data_by_date (some [c7row]) ⟨2014, 7, 10⟩).records = [] := by
  refine ⟨by decide, by decide, by decide, by decide⟩

/-- C7 amended: in every successfully processed Generation-B record the
presence flag is bool(int(s)) — an integer literal, true exactly when
nonzero — so "1" still counts as true but "true"/"yes" raise ValueError
(sending the whole query to the error payload), while is_in_eddy is
parsed by case-insensitive comparison with the literal "true", default
"False". -/
theorem c7_flag_parsing :
    (∀ (r : CsvRow) (pr : ProcRecord), processRecord r = .ok pr →
      pr.is_in_eddy = (pyLower ((dget r "is_in_eddy").getD "False") == "true")
      ∧ ∃ s n, dget r "has_shark" = some s ∧ pyInt s = some n
          ∧ pr.has_shark = decide (n ≠ 0))
    ∧ pyInt "1" = some 1 ∧ pyInt "0" = some 0
    ∧ pyInt "true" = none ∧ pyInt "yes" = none := by
  refine ⟨?_, by decide, by decide, by decide, by decide⟩
  intro r pr h
  unfold processRecord at h
  rcases (except_bind_ok _ _ _).mp h with ⟨lon, hlon, h⟩
  rcases (except_bind_ok _ _ _).mp h with ⟨lat, hlat, h⟩
  rcases (except_bind_ok _ _ _).mp h with ⟨sst, hsst, h⟩
  rcases (except_bind_ok _ _ _).mp h with ⟨chl, hchl, h⟩
  rcases (except_bind_ok _ _ _).mp h with ⟨ssha, hssha, h⟩
  rcases (except_bind_ok _ _ _).mp h with ⟨hs, hhs, h⟩
  rcases (except_bind_ok _ _ _).mp h with ⟨hsi, hhsi, h⟩
  simp only [pure, Except.pure, Except.ok.injEq] at h
  subst h
  exact ⟨rfl, hs, hsi, (getCol_ok r "has_shark" hs).mp hhs,
    (pyIntE_ok hs hsi).mp hhsi, rfl⟩

/-- A record with has_shark = "1" that processes successfully. -/
def c7rowGood : CsvRow :=
  [("Date", "2014-07-10"), ("Longitude", "0"), ("Latitude", "0"),
   ("SST_Value", "0"), ("CHL_Concentration", "0"), ("SSHA_Value", "0"),
   ("has_shark", "1")]

/-- The processed record the code produces for c7rowGood. -/
def c7procGood : ProcRecord :=
  { longitude := some 0
    latitude := some 0
    sst_value := some 0
    chl_value := some 0
    ssha_value := some 0
    has_shark := true
    individual_id := ""
    sst_gradient := some 0
    chl_gradient := some 0
    ssha_gradient := some 0
    thermal_front_strength := some 0
    productivity_index := some 0
    is_in_eddy := false
    eddy_type := "none"
    daily_movement_km := some 0 }

theorem safe_float_zero : safe_float "0" = some 0 := by
  have h : safe_float "0" = some (((1 : Int) : ℚ) * ((0 : ℕ) : ℚ)) := rfl
  rw [h]
  norm_num

theorem c7_process_good : processRecord c7rowGood = .ok c7procGood := by
  have h : processRecord c7rowGood = .ok
      { longitude := safe_float "0", latitude := safe_float "0",
        sst_value := safe_float "0", chl_value := safe_float "0",
        ssha_value := safe_float "0", has_shark := true, individual_id := "",
        sst_gradient := some 0, chl_gradient := some 0, ssha_gradient := some 0,
        thermal_front_strength := some 0, productivity_index := some 0,
        is_in_eddy := false, eddy_type := "none",
        daily_movement_km := some 0 } := rfl
  rw [h, safe_float_zero]
  rfl

/-- Witness for C7 amended at a concrete record. -/
theorem c7_flag_parsing_witness :
    processRecord c7rowGood = .ok c7procGood
    ∧ (c7procGood.is_in_eddy
        = (pyLower ((dget c7rowGood "is_in_eddy").getD "False") == "true")
      ∧ ∃ s n, dget c7rowGood "has_shark" = some s ∧ pyInt s = some n
          ∧ c7procGood.has_shark = decide (n ≠ 0)) :=
  ⟨c7_process_good, c7_flag_parsing.1 c7rowGood c7procGood c7_process_good⟩

theorem length_filter_partition {α : Type _} (p : α → Bool) (l : List α) :
    (l.filter p).length + (l.filter (fun a => !p a)).length = l.length := by
  induction l with
  | nil => rfl
  | cons a l ih => cases h : p a <;> simp [List.filter_cons, h] <;> omega

/-- The count/rate coherence invariant of the Generation-B payload. -/
def GBInv (p : SimplePayload) : Prop :=
  p.shark_count + p.no_shark_count = p.total_records
  ∧ p.total_records = p.data_count
  ∧ p.data_count = p.records.length
  ∧ p.shark_presence_rate =
      (if p.total_records = 0 then 0
       else pyRound6 ((p.shark_count : ℚ) / (p.total_records : ℚ)))

theorem gbInv_zero (d : PyDate) (err : Bool) (msg : Option String) :
    GBInv (zeroPayload d err msg) := by
  refine ⟨rfl, rfl, rfl, ?_⟩
  simp [zeroPayload]

theorem gbInv_success (target : PyDate)
    (sstVals chlVals sshaVals lonVals latVals : List (Option ℚ))
    (processed : List ProcRecord) :
    GBInv (successPayload target sstVals chlVals sshaVals lonVals latVals
      processed) := by
  refine ⟨length_filter_partition _ _, rfl, rfl, ?_⟩
  by_cases h : processed.length = 0
  · have hnil : processed = [] := List.length_eq_zero.mp h
    subst hnil
    norm_num [successPayload, pyRound6, roundHalfEven]
  · simp only [successPayload, if_neg h]

theorem gb_body_ok_inv (rows : List CsvRow) (target : PyDate)
    (p : SimplePayload) (h : gb_body rows target = .ok p) : GBInv p := by
  unfold gb_body at h
  rcases (except_bind_ok _ _ _).mp h with ⟨matching, _, h⟩
  by_cases he : matching.isEmpty
  · simp only [if_pos he, pure, Except.pure, Except.ok.injEq] at h
    subst h
    exact gbInv_zero target false (some "no data")
  · simp only [if_neg he] at h
    rcases (except_bind_ok _ _ _).mp h with ⟨sstVals, _, h⟩
    rcases (except_bind_ok _ _ _).mp h with ⟨chlVals, _, h⟩
    rcases (except_bind_ok _ _ _).mp h with ⟨sshaVals, _, h⟩
    rcases (except_bind_ok _ _ _).mp h with ⟨lonVals, _, h⟩
    rcases (except_bind_ok _ _ _).mp h with ⟨latVals, _, h⟩
    rcases (except_bind_ok _ _ _).mp h with ⟨ints, _, h⟩
    rcases (except_bind_ok _ _ _).mp h with ⟨processed, _, h⟩
    simp only [pure, Except.pure, Except.ok.injEq] at h
    subst h
    exact gbInv_success target sstVals chlVals sshaVals lonVals latVals processed

/-- C10: in every Generation-B payload — success, no-match, missing file
or in-body exception — shark_count + no_shark_count = total_records =
data_count = length of the records list, and the presence rate is
shark_count / total_records rounded to 6 decimals (0 when there are no
records). -/
theorem c10_payload_invariants :
    ∀ (file : Option (List CsvRow)) (target : PyDate),
      GBInv (get_ocean_data_by_date file target) := by
  intro file target
  cases file with
  | none => exact gbInv_zero target true none
  | some rows =>
    cases h : gb_body rows target with
    | ok p =>
      have hp := gb_body_ok_inv rows target p h
      simpa [get_ocean_data_by_date, h] using hp
    | error e =>
      simp only [get_ocean_data_by_date, h]
      exact gbInv_zero target true none

/-- math.radians. -/
noncomputable def radiansF (x : ℝ) : ℝ :=
  x * Real.pi / 180

open Classical in
/-- math.atan2 over the reals (the branch analysis of the C library
function; only the x > 0 branch is exercised by haversine, where
x = sqrt(1 - a) with 0 <= a < 1 or the degenerate x = 0 cases). -/
noncomputable def atan2 (y x : ℝ) : ℝ :=
  if 0 < x then Real.arctan (y / x)
  else if x < 0 ∧ 0 ≤ y then Real.arctan (y / x) + Real.pi
  else if x < 0 ∧ y < 0 then Real.arctan (y / x) - Real.pi
  else if x = 0 ∧ 0 < y then Real.pi / 2
  else if x = 0 ∧ y < 0 then -(Real.pi / 2)
  else 0

/-- OceanDataProcessor.haversine_distance (data_processor.py:105-113),
R = 6371 km. -/
noncomputable def haversine_distance (lat1 lon1 lat2 lon2 : ℝ) : ℝ :=
  let rlat1 := radiansF lat1
  let rlon1 := radiansF lon1
  let rlat2 := radiansF lat2
  let rlon2 := radiansF lon2
  let dlat := rlat2 - rlat1
  let dlon := rlon2 - rlon1
  let a := Real.sin (dlat / 2) ^ 2
    + Real.cos rlat1 * Real.cos rlat2 * Real.sin (dlon / 2) ^ 2
  let c := 2 * atan2 (Real.sqrt a) (Real.sqrt (1 - a))
  6371 * c

/-- C4: the Haversine distance between identical coordinates is 0, and
from (0, 0) to (0, 1 degree) it is exactly 6371 * radians(1), about
111.19 km. -/
theorem c4_haversine_correct :
    (∀ lat lon : ℝ, haversine_distance lat lon lat lon = 0)
    ∧ haversine_distance 0 0 0 1 = 6371 * radiansF 1 := by
  constructor
  · intro lat lon
    simp only [haversine_distance, radiansF, sub_self, zero_div, Real.sin_zero,
      ne_eq, OfNat.ofNat_ne_zero, not_false_eq_true, zero_pow, mul_zero,
      add_zero, Real.sqrt_zero, sub_zero, Real.sqrt_one]
    rw [atan2, if_pos one_pos]
    simp
  · have hpi := Real.pi_pos
    have hθpos : (0 : ℝ) < Real.pi / 360 := by positivity
    have hθlt : Real.pi / 360 < Real.pi / 2 := by linarith
    have hsin : 0 ≤ Real.sin (Real.pi / 360) :=
      Real.sin_nonneg_of_nonneg_of_le_pi hθpos.le (by linarith)
    have hcos : 0 < Real.cos (Real.pi / 360) :=
      Real.cos_pos_of_mem_Ioo ⟨by linarith, hθlt⟩
    have e3 : (0 : ℝ) * Real.pi / 180 = 0 := by ring
    have e4 : (Real.pi / 180) / 2 = Real.pi / 360 := by ring
    simp only [haversine_distance, radiansF, e3, sub_zero, one_mul, e4,
      zero_div, Real.sin_zero, Real.cos_zero, ne_eq, OfNat.ofNat_ne_zero,
      not_false_eq_true, zero_pow, zero_add]
    have hs : Real.sqrt (Real.sin (Real.pi / 360) ^ 2)
        = Real.sin (Real.pi / 360) := Real.sqrt_sq hsin
    have hc : Real.sqrt (1 - Real.sin (Real.pi / 360) ^ 2)
        = Real.cos (Real.pi / 360) := by
      rw [← Real.cos_sq']
      exact Real.sqrt_sq hcos.le
    rw [hs, hc, atan2, if_pos hcos, ← Real.tan_eq_sin_div_cos,
      Real.arctan_tan (by linarith) hθlt]
    ring

/-- A dataset row as augment_data reads it: coordinates and the presence
label. The feature columns that augment_data fills by spatial
interpolation are orthogonal to the exclusion-radius property and are not
carried in this projection. -/
structure ARow where
  lon : ℝ
  lat : ℝ
  hasShark : Int

/-- The positive-label coordinates, as (Longitude, Latitude) pairs
(data_processor.py:120). -/
def sharkCoords (df : List ARow) : List (ℝ × ℝ) :=
  (df.filter (fun r => r.hasShark == 1)).map (fun r => (r.lon, r.lat))

/-- Python min over a nonempty list (0 is a dead value for the empty
list, which raises in Python). -/
noncomputable def listMinR : List ℝ → ℝ
  | [] => 0
  | x :: xs => xs.foldl min x

/-- Python max over a nonempty list, same convention. -/
noncomputable def listMaxR : List ℝ → ℝ
  | [] => 0
  | x :: xs => xs.foldl max x

/-- np.arange(start, stop, step) for positive step. -/
noncomputable def arange (start stop step : ℝ) : List ℝ :=
  (List.range ⌈(stop - start) / step⌉₊).map (fun k => start + (k : ℝ) * step)

open Classical in
/-- OceanDataProcessor.augment_data (data_processor.py:115-189): when
positive points exist, walk the longitude/latitude grid and keep exactly
the points whose minimum Haversine distance to every positive coordinate
exceeds 10 km; each kept point is appended as a has_shark = 0 row. -/
noncomputable def augment_data (df : List ARow) (grid_spacing : ℝ) : List ARow :=
  let coords := sharkCoords df
  if coords.isEmpty then df
  else
    let lonMin := listMinR (df.map (·.lon))
    let lonMax := listMaxR (df.map (·.lon))
    let latMin := listMinR (df.map (·.lat))
    let latMax := listMaxR (df.map (·.lat))
    let grid := (arange lonMin lonMax grid_spacing).flatMap (fun lon =>
      (arange latMin latMax grid_spacing).map (fun lat => (lon, lat)))
    let newPts := grid.filter (fun p =>
      decide (10 < listMinR
        (coords.map (fun c => haversine_distance p.2 p.1 c.2 c.1))))
    df ++ newPts.map (fun p => ⟨p.1, p.2, 0⟩)

theorem listMinR_le (l : List ℝ) (x : ℝ) (hx : x ∈ l) : listMinR l ≤ x := by
  have key : ∀ (xs : List ℝ) (a : ℝ),
      xs.foldl min a ≤ a ∧ ∀ y ∈ xs, xs.foldl min a ≤ y := by
    intro xs
    induction xs with
    | nil => exact fun a => ⟨le_refl a, by simp⟩
    | cons b xs ih =>
      intro a
      refine ⟨?_, ?_⟩
      · calc (b :: xs).foldl min a = xs.foldl min (min a b) := rfl
          _ ≤ min a b := (ih (min a b)).1
          _ ≤ a := min_le_left a b
      · intro y hy
        rcases List.mem_cons.mp hy with rfl | hy2
        · calc (y :: xs).foldl min a = xs.foldl min (min a y) := rfl
            _ ≤ min a y := (ih (min a y)).1
            _ ≤ y := min_le_right a y
        · exact (ih (min a b)).2 y hy2
  match l, hx with
  | a :: xs, hx =>
    rcases List.mem_cons.mp hx with rfl | hy
    · exact le_trans ((key xs x).1) (le_refl x)
    · exact (key xs a).2 x hy

/-- C5: every synthetic row appended by augment_data carries has_shark = 0
and lies strictly more than 10 km (Haversine) from every positive-label
coordinate of the input; grid points within 10 km of a positive point are
never emitted. -/
theorem c5_augment_exclusion :
    ∀ (df : List ARow) (grid_spacing : ℝ),
      ListAll (fun r => r.hasShark = 0
          ∧ ListAll (fun c => 10 < haversine_distance r.lat r.lon c.2 c.1)
              (sharkCoords df))
        ((augment_data df grid_spacing).drop df.length) := by
  intro df sp
  simp only [augment_data]
  by_cases hc : (sharkCoords df).isEmpty
  · simp [hc, List.drop_length, ListAll]
  · simp only [if_neg hc, List.drop_left]
    rw [listAll_map, listAll_iff_forall]
    intro p hp
    have hmem := List.mem_filter.mp hp
    have h10 : 10 < listMinR
        ((sharkCoords df).map
          (fun c => haversine_distance p.2 p.1 c.2 c.1)) :=
      of_decide_eq_true hmem.2
    refine ⟨rfl, ?_⟩
    rw [listAll_iff_forall]
    intro c hcmem
    have hle : listMinR
        ((sharkCoords df).map (fun c => haversine_distance p.2 p.1 c.2 c.1))
        ≤ haversine_distance p.2 p.1 c.2 c.1 :=
      listMinR_le _ _ (List.mem_map_of_mem _ hcmem)
    exact lt_of_lt_of_le h10 hle

/-- The fixed feature-selection list of the advanced pipeline
(ml_prediction_advanced.py:62-70). -/
def selected_features : List String :=
  ["Longitude", "Latitude",
   "SST_Value", "SST_Gradient",
   "CHL_Concentration", "CHL_Gradient",
   "SSHA_Value", "SSHA_Gradient",
   "Thermal_Front_Strength", "Productivity_Index",
   "dist_to_eddy_center_km", "Daily_Movement_km",
   "Days_To_Env_Data"]

/-- The selected features actually present in the CSV header. -/
def availableFeatures (headers : List String) : List String :=
  selected_features.filter (fun f => headers.contains f)

/-- Per-cell cleaning (ml_prediction_advanced.py:84-104): boolean and
eddy-type encodings (dead branches for the fixed selection list), numeric
coercion with the empty-string and parse-failure fallbacks to 0.0, and
the |x| > 1e6 outlier clamp to 0.0. -/
noncomputable def featValue (f : String) (v : String) : ℝ :=
  if f = "is_in_eddy" then (if pyLower v ∈ ["true", "1", "yes"] then 1 else 0)
  else if f = "eddy_type" then
    (if pyLower v = "none" then 0
     else if pyLower v = "anticyclonic" then 1
     else if pyLower v = "cyclonic" then 2 else 0)
  else
    let x : ℚ := if v = "" then 0 else (pyFloat v).getD 0
    if 1000000 < |x| then 0 else ((x : ℚ) : ℝ)

/-- The base feature vector of one row: one cleaned value per available
feature, row.get(feature, '0'). -/
noncomputable def baseVec (headers : List String) (r : CsvRow) : List ℝ :=
  (availableFeatures headers).map (fun f => featValue f ((dget r f).getD "0"))

/-- Feature engineering (ml_prediction_advanced.py:106-116): with at
least 4 base features, append SST_CHL_Interaction (positions 2 and 4 of
the vector when position 4 exists, else 0.0) and then Distance_From_Origin
= (feature0^2 + feature1^2) ** 0.5. -/
noncomputable def engineerRow (b : List ℝ) : List ℝ :=
  if 4 ≤ b.length then
    let b1 := b ++ [if 4 < b.length then b.getD 2 0 * b.getD 4 0 else 0]
    if 2 ≤ b1.length then
      b1 ++ [Real.sqrt (b1.getD 0 0 ^ 2 + b1.getD 1 0 ^ 2)]
    else b1
  else b

/-- Label extraction: int(float(row['has_shark'])) when the column is
present (truncation toward zero; a parse failure raises). -/
def labelOf (r : CsvRow) : Except PyErr (Option Int) :=
  match dget r "has_shark" with
  | none => .ok none
  | some s =>
    match pyFloat s with
    | none => .error .valueError
    | some q => .ok (some (if q < 0 then ⌈q⌉ else ⌊q⌋))

/-- np.mean over column j (out-of-range entries read as 0; rows are
uniform in practice). -/
noncomputable def colMean (m : List (List ℝ)) (j : Nat) : ℝ :=
  (m.map (fun r => r.getD j 0)).sum / (m.length : ℝ)

/-- np.std (population) over column j. -/
noncomputable def colStd (m : List (List ℝ)) (j : Nat) : ℝ :=
  Real.sqrt ((m.map (fun r => (r.getD j 0 - colMean m j) ^ 2)).sum
    / (m.length : ℝ))

open Classical in
/-- np.where(stds == 0, 1, stds). -/
noncomputable def colStdAdj (m : List (List ℝ)) (j : Nat) : ℝ :=
  if colStd m j = 0 then 1 else colStd m j

/-- Z-score normalization (ml_prediction_advanced.py:128-143),
elementwise over the uniform matrix. -/
noncomputable def normalizeMatrix (m : List (List ℝ)) : List (List ℝ) :=
  m.map (fun r => (List.range r.length).map
    (fun j => (r.getD j 0 - colMean m j) / colStdAdj m j))

/-- data_engineering_pipeline (ml_prediction_advanced.py:41-148): parse,
select, clean, engineer, extract labels, normalize; the error return
covers the empty CSV and label parse failures. -/
noncomputable def data_engineering_pipeline (rows : List CsvRow) :
    Except PyErr (List (List ℝ) × List String × List Int) :=
  if rows.isEmpty then .error .valueError
  else
    let headers := (rows.headD []).map Prod.fst
    let af := availableFeatures headers
    let processed := rows.map (fun r => engineerRow (baseVec headers r))
    match mapE labelOf rows with
    | .error e => .error e
    | .ok labelOpts =>
      let labels := labelOpts.filterMap id
      let names := af ++
        (if 0 < processed.length ∧ af.length < (processed.headD []).length
         then ["SST_CHL_Interaction", "Distance_From_Origin"] else [])
      if processed.isEmpty then .ok (processed, names, labels)
      else .ok (normalizeMatrix processed, names, labels)

/-- Synthetic names appended by the advanced width adjustment
(f-string without the +1 of the simple route). -/
def padNamesAdv (names : List String) (w : Nat) : List String :=
  names ++ (List.range (w - names.length)).map
    (fun i => "feature_" ++ toString (names.length + i))

/-- The width-adjustment step of predict_with_advanced_preprocessing
(ml_prediction_advanced.py:181-194): branch on the first row's width,
right-truncate or zero-pad every row. -/
noncomputable def adjustToModel (m : List (List ℝ)) (names : List String)
    (w : Nat) : List (List ℝ) × List String :=
  let k0 := (m.headD []).length
  if w < k0 then (m.map (·.take w), names.take w)
  else if k0 < w then
    (m.map (fun r => r ++ List.replicate (w - r.length) 0), padNamesAdv names w)
  else (m, names)

/-- The normalized matrix produced by the pipeline ([] on error). -/
noncomputable def pipelineMatrix (rows : List CsvRow) : List (List ℝ) :=
  match data_engineering_pipeline rows with
  | .error _ => []
  | .ok (m, _, _) => m

/-- The matrix handed to model.predict by the advanced route ([] when
the route errors out before predicting). -/
noncomputable def advMatrix (rows : List CsvRow) (w : Nat) : List (List ℝ) :=
  match data_engineering_pipeline rows with
  | .error _ => []
  | .ok (m, names, _) => (adjustToModel m names w).1

/-- The uniform row width the pipeline produces for a given input. -/
def engLen (rows : List CsvRow) : Nat :=
  let af := availableFeatures ((rows.headD []).map Prod.fst)
  if 4 ≤ af.length then af.length + 2 else af.length

theorem engineerRow_length (b : List ℝ) :
    (engineerRow b).length = if 4 ≤ b.length then b.length + 2 else b.length := by
  unfold engineerRow
  by_cases h : 4 ≤ b.length
  · rw [if_pos h, if_pos h, if_pos (by simp [List.length_append]; omega)]
    simp [List.length_append]
  · rw [if_neg h, if_neg h]

theorem normalizeMatrix_mem_length (m : List (List ℝ)) (r : List ℝ)
    (hr : r ∈ normalizeMatrix m) : ∃ r0 ∈ m, r.length = r0.length := by
  simp only [normalizeMatrix, List.mem_map] at hr
  obtain ⟨r0, h0, rfl⟩ := hr
  exact ⟨r0, h0, by simp⟩

theorem pipeline_ok_lengths (rows : List CsvRow) (m : List (List ℝ))
    (names : List String) (labels : List Int)
    (h : data_engineering_pipeline rows = .ok (m, names, labels)) :
    ∀ r ∈ m, r.length = engLen rows := by
  intro r hr
  by_cases he : rows.isEmpty
  · simp [data_engineering_pipeline, he] at h
  · simp only [data_engineering_pipeline, if_neg he] at h
    cases hml : mapE labelOf rows with
    | error e => simp [hml] at h
    | ok lo =>
      simp only [hml] at h
      have hpne : ¬(rows.map (fun r =>
          engineerRow (baseVec ((rows.headD []).map Prod.fst) r))).isEmpty := by
        simp only [List.isEmpty_iff, List.map_eq_nil_iff]
        simp only [List.isEmpty_iff] at he
        exact he
      rw [if_neg hpne] at h
      have hm : m = normalizeMatrix (rows.map (fun r =>
          engineerRow (baseVec ((rows.headD []).map Prod.fst) r))) := by
        cases h
        rfl
      subst hm
      obtain ⟨r0, h0, hlen⟩ := normalizeMatrix_mem_length _ r hr
      simp only [List.mem_map] at h0
      obtain ⟨row, _, rfl⟩ := h0
      rw [hlen, engineerRow_length]
      simp only [baseVec, List.length_map, engLen]

theorem pipelineMatrix_lengths (rows : List CsvRow) :
    ∀ r ∈ pipelineMatrix rows, r.length = engLen rows := by
  intro r hr
  unfold pipelineMatrix at hr
  cases h : data_engineering_pipeline rows with
  | error e => rw [h] at hr; cases hr
  | ok t =>
    obtain ⟨m, names, labels⟩ := t
    rw [h] at hr
    exact pipeline_ok_lengths rows m names labels h r hr

theorem rawRows_of_no_headers (headers : List String) (rows : List CsvRow)
    (hn : numericHeaders headers = []) : rawRows headers rows = [] := by
  unfold rawRows
  rw [hn]
  apply List.filter_eq_nil_iff.mpr
  intro a ha
  simp only [List.mem_map] at ha
  obtain ⟨row, _, rfl⟩ := ha
  simp

theorem mlMatrix_eq (headers : List String) (rows : List CsvRow) (w : Nat) :
    mlMatrix headers rows w
      = (rawRows headers rows).map
          (fun r => r.take w ++ List.replicate (w - r.length) (0 : ℚ)) := by
  by_cases hh : headers.isEmpty
  · have hP : process_csv_for_ml headers rows w = none := by
      simp only [process_csv_for_ml]
      rw [if_pos hh]
    have hn : numericHeaders headers = [] := by
      have : headers = [] := List.isEmpty_iff.mp hh
      subst this
      rfl
    rw [rawRows_of_no_headers headers rows hn]
    simp [mlMatrix, hP]
  · by_cases hd : (rawRows headers rows).isEmpty
    · have hP : process_csv_for_ml headers rows w = none := by
        simp only [process_csv_for_ml]
        rw [if_neg hh, if_pos hd]
      rw [List.isEmpty_iff.mp hd]
      simp [mlMatrix, hP]
    · have hlen := rawRows_length headers rows
      rcases lt_trichotomy w (numericHeaders headers).length with hlt | heq | hgt
      · have hP : process_csv_for_ml headers rows w
            = some ((rawRows headers rows).map (·.take w),
                (numericHeaders headers).take w) := by
          simp only [process_csv_for_ml]
          rw [if_neg hh, if_neg hd, if_pos hlt]
        simp only [mlMatrix, hP]
        apply Eq.symm
        apply List.map_congr_left
        intro r hr
        have : r.length = (numericHeaders headers).length := hlen r hr
        have : w - r.length = 0 := by omega
        rw [this, List.replicate_zero, List.append_nil]
      · have hP : process_csv_for_ml headers rows w
            = some (rawRows headers rows, numericHeaders headers) := by
          simp only [process_csv_for_ml]
          rw [if_neg hh, if_neg hd, if_neg (by omega), if_neg (by omega)]
        simp only [mlMatrix, hP]
        apply Eq.symm
        calc List.map (fun r => r.take w ++ List.replicate (w - r.length) 0)
              (rawRows headers rows)
            = List.map (fun r => r) (rawRows headers rows) := by
              apply List.map_congr_left
              intro r hr
              have hr1 : r.length = (numericHeaders headers).length := hlen r hr
              have ht : r.take w = r := List.take_of_length_le (by omega)
              have hz : w - r.length = 0 := by omega
              rw [ht, hz, List.replicate_zero, List.append_nil]
          _ = rawRows headers rows := (rawRows headers rows).map_id
      · have hP : process_csv_for_ml headers rows w
            = some ((rawRows headers rows).map
                  (fun r => r ++ List.replicate (w - r.length) 0),
                padNames (numericHeaders headers) w) := by
          simp only [process_csv_for_ml]
          rw [if_neg hh, if_neg hd, if_neg (by omega), if_pos (by omega)]
        simp only [mlMatrix, hP]
        apply List.map_congr_left
        intro r hr
        have hr1 : r.length = (numericHeaders headers).length := hlen r hr
        have ht : r.take w = r := List.take_of_length_le (by omega)
        rw [ht]

theorem advMatrix_eq (rows : List CsvRow) (w : Nat) :
    advMatrix rows w
      = (pipelineMatrix rows).map
          (fun r => r.take w ++ List.replicate (w - r.length) (0 : ℝ)) := by
  unfold advMatrix pipelineMatrix
  cases h : data_engineering_pipeline rows with
  | error e => rfl
  | ok t =>
    obtain ⟨m, names, labels⟩ := t
    have hu : ∀ r ∈ m, r.length = engLen rows :=
      pipeline_ok_lengths rows m names labels h
    have hk0 : ∀ r ∈ m, r.length = (m.headD []).length := by
      intro r hr
      cases m with
      | nil => cases hr
      | cons r0 mrest =>
        rw [hu r hr]
        simp only [List.headD_cons]
        rw [hu r0 (List.mem_cons_self r0 mrest)]
    simp only [adjustToModel]
    rcases lt_trichotomy w ((m.headD []).length) with hlt | heq | hgt
    · rw [if_pos hlt]
      apply Eq.symm
      apply List.map_congr_left
      intro r hr
      have hr1 : r.length = (m.headD []).length := hk0 r hr
      have : w - r.length = 0 := by omega
      rw [this, List.replicate_zero, List.append_nil]
    · rw [if_neg (by omega), if_neg (by omega)]
      apply Eq.symm
      calc List.map (fun r => r.take w ++ List.replicate (w - r.length) 0) m
          = List.map (fun r => r) m := by
            apply List.map_congr_left
            intro r hr
            have hr1 : r.length = (m.headD []).length := hk0 r hr
            have ht : r.take w = r := List.take_of_length_le (by omega)
            have hz : w - r.length = 0 := by omega
            rw [ht, hz, List.replicate_zero, List.append_nil]
        _ = m := List.map_id_fun.{0} ▸ m.map_id
    · rw [if_neg (by omega), if_pos (by omega)]
      apply Eq.symm
      apply List.map_congr_left
      intro r hr
      have hr1 : r.length = (m.headD []).length := hk0 r hr
      have : r.take w = r := List.take_of_length_le (by omega)
      rw [this]

/-- C2: in both the simple and the advanced preprocessing route the
matrix handed to model.predict consists of the parsed rows adjusted to
exactly the model width w: the first w entries are kept and missing
entries are zero-filled on the right, so every row has exactly w
columns. -/
theorem c2_feature_width :
    (∀ (headers : List String) (rows : List CsvRow) (w : Nat),
      mlMatrix headers rows w
        = (rawRows headers rows).map
            (fun r => r.take w ++ List.replicate (w - r.length) (0 : ℚ))
      ∧ ListAll (fun r => r.length = w) (mlMatrix headers rows w))
    ∧ (∀ (rows : List CsvRow) (w : Nat),
      advMatrix rows w
        = (pipelineMatrix rows).map
            (fun r => r.take w ++ List.replicate (w - r.length) (0 : ℝ))
      ∧ ListAll (fun r => r.length = w) (advMatrix rows w)) := by
  constructor
  · intro headers rows w
    refine ⟨mlMatrix_eq headers rows w, ?_⟩
    rw [mlMatrix_eq, listAll_map, listAll_iff_forall]
    intro r hr
    simp only [List.length_append, List.length_take, List.length_replicate]
    omega
  · intro rows w
    refine ⟨advMatrix_eq rows w, ?_⟩
    rw [advMatrix_eq, listAll_map, listAll_iff_forall]
    intro r hr
    simp only [List.length_append, List.length_take, List.length_replicate]
    omega

/-- C8: whenever a row has at least 4 base features, exactly the two
engineered features are appended: SST_CHL_Interaction, the product of
vector positions 2 and 4 (position 4 reading as 0 when only 4 base
features exist, where the code writes the literal 0.0), and
Distance_From_Origin = sqrt(feature0^2 + feature1^2). -/
theorem c8_engineered_features :
    ∀ (b : List ℝ), 4 ≤ b.length →
      engineerRow b
        = b ++ [b.getD 2 0 * b.getD 4 0,
            Real.sqrt (b.getD 0 0 ^ 2 + b.getD 1 0 ^ 2)] := by
  intro b hb
  unfold engineerRow
  rw [if_pos hb, if_pos (by simp [List.length_append]; omega)]
  have h0 : (b ++ [if 4 < b.length then b.getD 2 0 * b.getD 4 0 else 0]).getD 0 0
      = b.getD 0 0 := List.getD_append _ _ _ _ (by omega)
  have h1 : (b ++ [if 4 < b.length then b.getD 2 0 * b.getD 4 0 else 0]).getD 1 0
      = b.getD 1 0 := List.getD_append _ _ _ _ (by omega)
  rw [h0, h1, List.append_assoc]
  by_cases h4 : 4 < b.length
  · rw [if_pos h4]
    rfl
  · rw [if_neg h4]
    have hgd : b.getD 4 0 = 0 := List.getD_eq_default _ _ (by omega)
    rw [hgd, mul_zero]
    rfl

/-- Witness for C8 at a concrete 5-wide row. -/
theorem c8_engineered_features_witness :
    4 ≤ ([(0 : ℝ), 0, 0, 0, 0]).length
    ∧ engineerRow [(0 : ℝ), 0, 0, 0, 0]
        = [(0 : ℝ), 0, 0, 0, 0]
          ++ [List.getD [(0 : ℝ), 0, 0, 0, 0] 2 0
                * List.getD [(0 : ℝ), 0, 0, 0, 0] 4 0,
              Real.sqrt (List.getD [(0 : ℝ), 0, 0, 0, 0] 0 0 ^ 2
                + List.getD [(0 : ℝ), 0, 0, 0, 0] 1 0 ^ 2)] :=
  ⟨by simp, c8_engineered_features [(0 : ℝ), 0, 0, 0, 0] (by simp)⟩
